import Mathlib

/-!
# ptyqt: the POSIX pseudo-terminal backend (`src/core/unixptyprocess.cpp`)

A shallow embedding of `UnixPtyProcess`.  The object is a record of its member
variables; every member function is a pure function from the record (and the
answers the operating system and Qt give to the calls it makes) to the updated
record and the returned value.  Each call that leaves the program (system call,
`QProcess` operation, emitted signal) is appended to the `log` field, so that
"which calls were issued, and in which order" can be stated.
-/

namespace PtyQt

/-! ## Data model -/

/-- Byte sequences (`QByteArray`). -/
abbrev QByteArray := List UInt8

/-- The three values of `QProcess::ProcessState`. -/
inductive ProcessState
  | NotRunning
  | Starting
  | Running
  deriving DecidableEq, Repr

/-- The `struct winsize` handed to `ioctl(fd, TIOCSWINSZ, ..)`; the four members
are `unsigned short`. -/
structure Winsize where
  ws_row : Nat
  ws_col : Nat
  ws_xpixel : Nat
  ws_ypixel : Nat
  deriving DecidableEq, Repr

/-- The nine acquisition and configuration steps of `startProcess`
(lines 55-167), in source order. -/
inductive PtyStep
  | openMaster
  | slaveName
  | grant
  | unlock
  | openSlave
  | flagMaster
  | flagSlave
  | getTermios
  | setTermios
  deriving DecidableEq, Repr

/-- One call that leaves the program, with its arguments and (where the code
looks at it) its result. -/
inductive SysCall
  | posix_openpt (ret : Int)
  | ptsname (fd : Int) (ret : String)
  | grantpt (fd : Int) (ret : Int)
  | unlockpt (fd : Int) (ret : Int)
  | openSlave (name : String) (ret : Int)
  | fcntlMaster (fd : Int) (ret : Int)
  | fcntlSlave (fd : Int) (ret : Int)
  | tcgetattr (fd : Int) (ret : Int)
  | tcsetattr (fd : Int) (ret : Int)
  | ioctlWinsz (fd : Int) (ws : Winsize) (ret : Int)
  | close (fd : Int)
  | read (fd : Int) (ret : QByteArray)
  | write (fd : Int) (data : QByteArray)
  | emitReadyRead
  | processStart (program : String) (env : List (String × String)) (dir : String)
  | waitForStarted
  | terminate
  | waitForFinished (msecs : Nat)
  | startDetachedKill9 (pid : Int)
  | processKill
  deriving DecidableEq, Repr

/-- A `QSocketNotifier` as far as this file uses it. -/
structure QSocketNotifier where
  socket : Int
  enabled : Bool
  connected : Bool
  deleteLater : Bool
  deriving DecidableEq, Repr

/-- The members of `UnixPtyProcess` (with those of its `ShellProcess`
`m_shellProcess` flattened in): `procState` is `m_shellProcess.state()`,
`workingDirectory` and `processEnvironment` are the two `QProcess` settings the
code writes, and `log` is the list of calls issued so far, oldest first. -/
structure UnixPtyProcess where
  m_shellPath : String
  m_lastError : String
  m_pid : Int
  m_size : Int × Int
  m_shellReadBuffer : QByteArray
  m_handleMaster : Int
  m_handleSlave : Int
  m_handleSlaveName : String
  procState : ProcessState
  workingDirectory : String
  processEnvironment : List (String × String)
  m_readMasterNotify : Option QSocketNotifier
  m_writeMasterNotify : Option QSocketNotifier
  m_readSlaveNotify : Option QSocketNotifier
  m_writeSlaveNotify : Option QSocketNotifier
  log : List SysCall
  deriving DecidableEq, Repr

/-- Append one call to the log. -/
@[simps]
def UnixPtyProcess.record (p : UnixPtyProcess) (c : SysCall) : UnixPtyProcess :=
  { p with log := p.log ++ [c] }

/-- The calls issued between the state `before` and the later state `after`. -/
def newCalls (before after : UnixPtyProcess) : List SysCall :=
  after.log.drop before.log.length

/-! ## `kill` (lines 248-289) -/

/-- What the child does during one `kill`: the process state seen after
`terminate(); waitForFinished(1000)` and the one seen after the forced kill and
the second `waitForFinished(1000)`. -/
structure KillWorld where
  afterTerminate : ProcessState
  afterKill : ProcessState

/-- The effect of `disconnect()` followed later by `deleteLater()` on one notifier. -/
def QSocketNotifier.release (n : QSocketNotifier) : QSocketNotifier :=
  { n with connected := false, deleteLater := true }

/-- The member function `UnixPtyProcess::kill`.  The four notifier pointers are
dereferenced only in the branch of a running child, where `startProcess` has
set them; a null pointer is left as it is. -/
def UnixPtyProcess.kill (w : KillWorld) (p : UnixPtyProcess) : UnixPtyProcess × Bool :=
  let p : UnixPtyProcess := { p with m_handleSlaveName := "" }
  let p : UnixPtyProcess :=
    if 0 ≤ p.m_handleSlave then
      { p.record (.close p.m_handleSlave) with m_handleSlave := -1 }
    else p
  let p : UnixPtyProcess :=
    if 0 ≤ p.m_handleMaster then
      { p.record (.close p.m_handleMaster) with m_handleMaster := -1 }
    else p
  if p.procState = .Running then
    let p : UnixPtyProcess := { p with
      m_readMasterNotify := p.m_readMasterNotify.map QSocketNotifier.release
      m_writeMasterNotify := p.m_writeMasterNotify.map QSocketNotifier.release
      m_readSlaveNotify := p.m_readSlaveNotify.map QSocketNotifier.release
      m_writeSlaveNotify := p.m_writeSlaveNotify.map QSocketNotifier.release }
    let p : UnixPtyProcess := (p.record .terminate).record (.waitForFinished 1000)
    let p : UnixPtyProcess := { p with procState := w.afterTerminate }
    let p : UnixPtyProcess :=
      if p.procState = .Running then
        let p : UnixPtyProcess := ((p.record (.startDetachedKill9 p.m_pid)).record .processKill).record
          (.waitForFinished 1000)
        { p with procState := w.afterKill }
      else p
    (p, decide (p.procState = .NotRunning))
  else
    (p, false)

/-! ## `resize` (lines 230-246) -/

/-- Conversion of a `qint16` to the `unsigned short` members of `struct winsize`. -/
def toUShort (x : Int) : Nat :=
  (x % 65536).toNat

/-- The `struct winsize` that `resize` fills in. -/
def winsizeOf (cols rows : Int) : Winsize :=
  { ws_col := toUShort cols, ws_row := toUShort rows, ws_xpixel := 0, ws_ypixel := 0 }

/-- The kernel's answer to `ioctl(fd, TIOCSWINSZ, &winp)`. -/
structure ResizeWorld where
  ioctlWinsz : Int → Winsize → Int

/-- The member function `UnixPtyProcess::resize`.  The `&&` of the source
evaluates the call on the slave only when the call on the master did not
return `-1`. -/
def UnixPtyProcess.resize (w : ResizeWorld) (cols rows : Int) (p : UnixPtyProcess) :
    UnixPtyProcess × Bool :=
  let winp := winsizeOf cols rows
  let rcMaster := w.ioctlWinsz p.m_handleMaster winp
  let p := p.record (.ioctlWinsz p.m_handleMaster winp rcMaster)
  if rcMaster ≠ -1 then
    let rcSlave := w.ioctlWinsz p.m_handleSlave winp
    let p := p.record (.ioctlWinsz p.m_handleSlave winp rcSlave)
    if rcSlave ≠ -1 then
      ({ p with m_size := (cols, rows) }, true)
    else (p, false)
  else (p, false)

/-! ## `readAll` and `write` (lines 311-324) -/

/-- The member function `UnixPtyProcess::readAll`. -/
def UnixPtyProcess.readAll (p : UnixPtyProcess) : UnixPtyProcess × QByteArray :=
  let tmpBuffer := p.m_shellReadBuffer
  ({ p with m_shellReadBuffer := [] }, tmpBuffer)

/-- The member function `UnixPtyProcess::write`: the result of the system call
is discarded and the length of the argument is returned. -/
def UnixPtyProcess.write (byteArray : QByteArray) (p : UnixPtyProcess) : UnixPtyProcess × Nat :=
  (p.record (.write p.m_handleMaster byteArray), byteArray.length)

/-! ## The read-readiness callback of the master descriptor (lines 171-188) -/

/-- The `do .. while` loop of the callback.  `reads` lists what the successive
`::read(fd, nativeBuffer, size)` calls deliver, oldest first (a call never
delivers more than `size` bytes, hence the `take`; once the list is used up a
call delivers nothing, which ends the loop since `size` is positive; a call
that returns `-1` is not covered).  The result is the final value of the local
`buffer`, the final value of the local `data`, and the chunks that were read. -/
def readLoop (size : Nat) : List QByteArray → QByteArray → QByteArray × QByteArray × List QByteArray
  | [], buffer => (buffer, [], [[]])
  | chunk :: rest, buffer =>
    let data := chunk.take size
    let buffer := buffer ++ data
    if data.length = size then
      let r := readLoop size rest buffer
      (r.1, r.2.1, data :: r.2.2)
    else (buffer, data, [data])

/-- The lambda connected to `m_readMasterNotify`: run the loop with
`size = 1024`, then `m_shellReadBuffer.append(data)` and `emitReadyRead()`. -/
def UnixPtyProcess.onReadMasterActivated (reads : List QByteArray) (p : UnixPtyProcess) :
    UnixPtyProcess :=
  let r := readLoop 1024 reads []
  let data := r.2.1
  let p := { p with log := p.log ++ r.2.2.map (SysCall.read p.m_handleMaster) }
  let p := { p with m_shellReadBuffer := p.m_shellReadBuffer ++ data }
  p.record .emitReadyRead

/-! ## `startProcess` (lines 29-228) -/

/-- The static member `UnixPtyProcess::isAvailable` (line 326). -/
def isAvailable : Bool := true

/-- Splitting at every occurrence of a separator character, empty parts kept:
`QString::split` with its default behaviour, on the list of characters.  The
result is never empty. -/
def splitChars (sep : Char) : List Char → List (List Char)
  | [] => [[]]
  | c :: cs =>
    if c = sep then [] :: splitChars sep cs
    else
      match splitChars sep cs with
      | [] => [[c]]
      | part :: parts => (c :: part) :: parts

/-- The expression `line.split("=")`. -/
def splitEq (line : String) : List String :=
  (splitChars '=' line.data).map String.mk

/-- The method `QProcessEnvironment::insert(name, value)`: a variable that is
already present gets the new value. -/
def envInsert (env : List (String × String)) (name value : String) : List (String × String) :=
  env.filter (fun kv => kv.1 ≠ name) ++ [(name, value)]

/-- The method `QProcessEnvironment::value(name)`, `none` when `name` is not set. -/
def envValue (env : List (String × String)) (name : String) : Option String :=
  (env.find? (fun kv => kv.1 = name)).map Prod.snd

/-- The `foreach` loop of lines 214-218: each line is inserted under the first
part of `line.split("=")`, with the last part of `line.split("=")` as value. -/
def envFormat (environment : List String) : List (String × String) :=
  environment.foldl
    (fun env line => envInsert env ((splitEq line).headD "") ((splitEq line).getLastD ""))
    []

/-- The text of `QString(fmt).arg(strerror(errno))` for the format string of
each step; every format string ends in `%1`, which the argument replaces. -/
def errorMessage (step : PtyStep) (err : String) : String :=
  match step with
  | .openMaster => "UnixPty Error: unable to open master -> " ++ err
  | .slaveName => "UnixPty Error: unable to get slave name -> " ++ err
  | .grant => "UnixPty Error: unable to change perms for slave -> " ++ err
  | .unlock => "UnixPty Error: unable to unlock slave -> " ++ err
  | .openSlave => "UnixPty Error: unable to open slave -> " ++ err
  | .flagMaster => "UnixPty Error: unable to set flags for master -> " ++ err
  | .flagSlave => "UnixPty Error: unable to set flags for slave -> " ++ err
  | .getTermios => "UnixPty Error: termios fail -> " ++ err
  | .setTermios => "UnixPty Error: unabble to set associated params -> " ++ err

/-- Everything outside the program that one run of `startProcess` consults:
the two file-system queries on the path, the value each system call returns
(`ptsname` as the `QString` built from its result, empty for a null pointer),
the text `strerror(errno)` after a step has failed, the application directory,
and the outcome of `start(..); waitForStarted()`: the process state and the
`processId()` seen afterwards.  `killWorld` serves the `kill()` of the failure
paths. -/
structure StartWorld where
  isRelative : String → Bool
  fileExists : String → Bool
  posix_openpt : Int
  ptsname : Int → String
  grantpt : Int → Int
  unlockpt : Int → Int
  openSlave : String → Int
  fcntlMaster : Int → Int
  fcntlSlave : Int → Int
  tcgetattr : Int → Int
  tcsetattr : Int → Int
  strerror : PtyStep → String
  applicationDirPath : String
  startedState : ProcessState
  processId : Int
  killWorld : KillWorld

/-- The block `m_lastError = ..; kill(); return false;` that ends each failing step. -/
def failStep (w : StartWorld) (step : PtyStep) (p : UnixPtyProcess) : UnixPtyProcess × Bool :=
  let p : UnixPtyProcess := { p with m_lastError := errorMessage step (w.strerror step) }
  ((p.kill w.killWorld).1, false)

/-- A freshly created and enabled `QSocketNotifier` on `fd` with a connected slot. -/
def newNotifier (fd : Int) : QSocketNotifier :=
  { socket := fd, enabled := true, connected := true, deleteLater := false }

/-- Lines 48-49: `m_shellPath = shellPath; m_size = QPair<qint16, qint16>(cols, rows);`. -/
@[simps]
def UnixPtyProcess.setTarget (shellPath : String) (cols rows : Int) (p : UnixPtyProcess) :
    UnixPtyProcess :=
  { p with m_shellPath := shellPath, m_size := (cols, rows) }

/-- Line 56: `m_handleMaster = ::posix_openpt(O_RDWR | O_NOCTTY)`. -/
@[simps]
def UnixPtyProcess.openMaster (w : StartWorld) (p : UnixPtyProcess) : UnixPtyProcess :=
  { p with
    m_handleMaster := w.posix_openpt
    log := p.log ++ [.posix_openpt w.posix_openpt] }

/-- Line 65: `m_handleSlaveName = ptsname(m_handleMaster)`. -/
@[simps]
def UnixPtyProcess.getSlaveName (w : StartWorld) (p : UnixPtyProcess) : UnixPtyProcess :=
  { p with
    m_handleSlaveName := w.ptsname p.m_handleMaster
    log := p.log ++ [.ptsname p.m_handleMaster (w.ptsname p.m_handleMaster)] }

/-- Line 92: `m_handleSlave = ::open(m_handleSlaveName.., O_RDWR | O_NOCTTY)`. -/
@[simps]
def UnixPtyProcess.openSlave (w : StartWorld) (p : UnixPtyProcess) : UnixPtyProcess :=
  { p with
    m_handleSlave := w.openSlave p.m_handleSlaveName
    log := p.log ++ [.openSlave p.m_handleSlaveName (w.openSlave p.m_handleSlaveName)] }

/-- Line 74: `rc = grantpt(m_handleMaster)`. -/
@[simps]
def UnixPtyProcess.grantSlave (w : StartWorld) (p : UnixPtyProcess) : UnixPtyProcess :=
  { p with log := p.log ++ [.grantpt p.m_handleMaster (w.grantpt p.m_handleMaster)] }

/-- Line 83: `rc = unlockpt(m_handleMaster)`. -/
@[simps]
def UnixPtyProcess.unlockSlave (w : StartWorld) (p : UnixPtyProcess) : UnixPtyProcess :=
  { p with log := p.log ++ [.unlockpt p.m_handleMaster (w.unlockpt p.m_handleMaster)] }

/-- Line 100: `rc = fcntl(m_handleMaster, F_SETFD, FD_CLOEXEC)`. -/
@[simps]
def UnixPtyProcess.setFlagMaster (w : StartWorld) (p : UnixPtyProcess) : UnixPtyProcess :=
  { p with log := p.log ++ [.fcntlMaster p.m_handleMaster (w.fcntlMaster p.m_handleMaster)] }

/-- Line 108: `rc = fcntl(m_handleSlave, F_SETFD, FD_CLOEXEC)`. -/
@[simps]
def UnixPtyProcess.setFlagSlave (w : StartWorld) (p : UnixPtyProcess) : UnixPtyProcess :=
  { p with log := p.log ++ [.fcntlSlave p.m_handleSlave (w.fcntlSlave p.m_handleSlave)] }

/-- Line 117: `rc = tcgetattr(m_handleMaster, &ttmode)`. -/
@[simps]
def UnixPtyProcess.getTermios (w : StartWorld) (p : UnixPtyProcess) : UnixPtyProcess :=
  { p with log := p.log ++ [.tcgetattr p.m_handleMaster (w.tcgetattr p.m_handleMaster)] }

/-- Line 161: `rc = tcsetattr(m_handleMaster, TCSANOW, &ttmode)`. -/
@[simps]
def UnixPtyProcess.setTermios (w : StartWorld) (p : UnixPtyProcess) : UnixPtyProcess :=
  { p with log := p.log ++ [.tcsetattr p.m_handleMaster (w.tcsetattr p.m_handleMaster)] }

/-- Lines 169-212: the four notifiers are created on the two descriptors,
enabled and connected. -/
@[simps]
def UnixPtyProcess.createNotifiers (p : UnixPtyProcess) : UnixPtyProcess :=
  { p with
    m_readMasterNotify := some (newNotifier p.m_handleMaster)
    m_writeMasterNotify := some (newNotifier p.m_handleMaster)
    m_readSlaveNotify := some (newNotifier p.m_handleSlave)
    m_writeSlaveNotify := some (newNotifier p.m_handleSlave) }

/-- Lines 219-225: working directory and environment are set, the program is
started with no arguments, `waitForStarted()` is called (its result is not
used), and `m_pid = m_shellProcess.processId()`. -/
@[simps]
def UnixPtyProcess.spawn (w : StartWorld) (envFormat : List (String × String))
    (p : UnixPtyProcess) : UnixPtyProcess :=
  { p with
    workingDirectory := w.applicationDirPath
    processEnvironment := envFormat
    procState := w.startedState
    m_pid := w.processId
    log := p.log ++ [.processStart p.m_shellPath envFormat w.applicationDirPath, .waitForStarted] }

/-- The member function `UnixPtyProcess::startProcess`.  Each step is one of the
functions above (the call is made and recorded, its result stored where the
source stores it), followed by the test the source applies to the result; a
test on `rc` reads the same answer of the world that the step recorded.  The
flag words and the control characters written into `ttmode` between
`tcgetattr` and `tcsetattr` are not part of the record of the call. -/
def UnixPtyProcess.startProcess (w : StartWorld) (shellPath : String)
    (environment : List String) (cols rows : Int) (p : UnixPtyProcess) : UnixPtyProcess × Bool :=
  if !isAvailable then
    ({ p with m_lastError := "WinPty Error: winpty-agent.exe or winpty.dll not found!" }, false)
  else if p.procState = .Running then
    (p, false)
  else if w.isRelative shellPath || !w.fileExists shellPath then
    ({ p with m_lastError := "WinPty Error: shell file path must be absolute" }, false)
  else
    let p := p.setTarget shellPath cols rows
    -- open master
    let p := p.openMaster w
    if p.m_handleMaster ≤ 0 then failStep w .openMaster p else
    -- get name of slave
    let p := p.getSlaveName w
    if p.m_handleSlaveName = "" then failStep w .slaveName p else
    -- change permission of slave
    let p := p.grantSlave w
    if w.grantpt p.m_handleMaster ≠ 0 then failStep w .grant p else
    -- unlock slave
    let p := p.unlockSlave w
    if w.unlockpt p.m_handleMaster ≠ 0 then failStep w .unlock p else
    -- open slave
    let p := p.openSlave w
    if p.m_handleSlave < 0 then failStep w .openSlave p else
    let p := p.setFlagMaster w
    if w.fcntlMaster p.m_handleMaster = -1 then failStep w .flagMaster p else
    let p := p.setFlagSlave w
    if w.fcntlSlave p.m_handleSlave = -1 then failStep w .flagSlave p else
    let p := p.getTermios w
    if w.tcgetattr p.m_handleMaster ≠ 0 then failStep w .getTermios p else
    -- set params to master
    let p := p.setTermios w
    if w.tcsetattr p.m_handleMaster ≠ 0 then failStep w .setTermios p else
    let p := p.createNotifiers
    let p := p.spawn w (envFormat environment)
    (p, true)

/-- The object right after the call of the given step has been made, on the
path of `startProcess` on which every earlier step passed its test. -/
def stateAt (w : StartWorld) (shellPath : String) (cols rows : Int) (p : UnixPtyProcess) :
    PtyStep → UnixPtyProcess
  | .openMaster => (p.setTarget shellPath cols rows).openMaster w
  | .slaveName => ((p.setTarget shellPath cols rows).openMaster w).getSlaveName w
  | .grant => (((p.setTarget shellPath cols rows).openMaster w).getSlaveName w).grantSlave w
  | .unlock =>
    ((((p.setTarget shellPath cols rows).openMaster w).getSlaveName w).grantSlave w).unlockSlave w
  | .openSlave =>
    (((((p.setTarget shellPath cols rows).openMaster w).getSlaveName w).grantSlave w).unlockSlave
      w).openSlave w
  | .flagMaster =>
    ((((((p.setTarget shellPath cols rows).openMaster w).getSlaveName w).grantSlave w).unlockSlave
      w).openSlave w).setFlagMaster w
  | .flagSlave =>
    (((((((p.setTarget shellPath cols rows).openMaster w).getSlaveName w).grantSlave
      w).unlockSlave w).openSlave w).setFlagMaster w).setFlagSlave w
  | .getTermios =>
    ((((((((p.setTarget shellPath cols rows).openMaster w).getSlaveName w).grantSlave
      w).unlockSlave w).openSlave w).setFlagMaster w).setFlagSlave w).getTermios w
  | .setTermios =>
    (((((((((p.setTarget shellPath cols rows).openMaster w).getSlaveName w).grantSlave
      w).unlockSlave w).openSlave w).setFlagMaster w).setFlagSlave w).getTermios w).setTermios w

/-- The test the code applies to the result of each step: true when the code
takes the failure block. -/
def rejects (w : StartWorld) : PtyStep → Prop
  | .openMaster => w.posix_openpt ≤ 0
  | .slaveName => w.ptsname w.posix_openpt = ""
  | .grant => w.grantpt w.posix_openpt ≠ 0
  | .unlock => w.unlockpt w.posix_openpt ≠ 0
  | .openSlave => w.openSlave (w.ptsname w.posix_openpt) < 0
  | .flagMaster => w.fcntlMaster w.posix_openpt = -1
  | .flagSlave => w.fcntlSlave (w.openSlave (w.ptsname w.posix_openpt)) = -1
  | .getTermios => w.tcgetattr w.posix_openpt ≠ 0
  | .setTermios => w.tcsetattr w.posix_openpt ≠ 0

instance rejectsDecidable (w : StartWorld) (step : PtyStep) : Decidable (rejects w step) := by
  cases step <;> unfold rejects <;> infer_instance

/-- The steps that come before a step, in source order. -/
def stepsBefore : PtyStep → List PtyStep
  | .openMaster => []
  | .slaveName => [.openMaster]
  | .grant => [.openMaster, .slaveName]
  | .unlock => [.openMaster, .slaveName, .grant]
  | .openSlave => [.openMaster, .slaveName, .grant, .unlock]
  | .flagMaster => [.openMaster, .slaveName, .grant, .unlock, .openSlave]
  | .flagSlave => [.openMaster, .slaveName, .grant, .unlock, .openSlave, .flagMaster]
  | .getTermios => [.openMaster, .slaveName, .grant, .unlock, .openSlave, .flagMaster, .flagSlave]
  | .setTermios =>
    [.openMaster, .slaveName, .grant, .unlock, .openSlave, .flagMaster, .flagSlave, .getTermios]

/-! ## Concrete states and worlds used as inputs below -/

/-- Modelled from the spec: the state of a newly constructed object.  The header
`unixptyprocess.h`, which declares the members and the initial values of the
two descriptors, is not among the sources; by section 3 of the spec a new
object is empty (`Idle`), with no child and no valid descriptor.  The four
notifier pointers are null by the constructor at lines 14-22. -/
def idle : UnixPtyProcess :=
  { m_shellPath := "", m_lastError := "", m_pid := 0, m_size := (0, 0),
    m_shellReadBuffer := [], m_handleMaster := -1, m_handleSlave := -1,
    m_handleSlaveName := "", procState := .NotRunning, workingDirectory := "",
    processEnvironment := [], m_readMasterNotify := none, m_writeMasterNotify := none,
    m_readSlaveNotify := none, m_writeSlaveNotify := none, log := [] }

/-- A child that stops at the first request. -/
def killEasy : KillWorld :=
  { afterTerminate := .NotRunning, afterKill := .NotRunning }

/-- A run in which every system call succeeds (master descriptor 5, slave
`/dev/pts/3` opened as descriptor 6) and the child starts with pid 4242. -/
def worldOk : StartWorld :=
  { isRelative := fun path => !path.data.head?.isEqSome '/'
    fileExists := fun _ => true
    posix_openpt := 5
    ptsname := fun _ => "/dev/pts/3"
    grantpt := fun _ => 0
    unlockpt := fun _ => 0
    openSlave := fun _ => 6
    fcntlMaster := fun _ => 0
    fcntlSlave := fun _ => 0
    tcgetattr := fun _ => 0
    tcsetattr := fun _ => 0
    strerror := fun _ => "Permission denied"
    applicationDirPath := "/opt/app"
    startedState := .Running
    processId := 4242
    killWorld := killEasy }

/-- A run like `worldOk`, except that the program cannot be executed: after
`start(..); waitForStarted()` the process is not running and has no pid. -/
def worldSpawnFails : StartWorld :=
  { worldOk with startedState := .NotRunning, processId := 0 }

/-- A run like `worldOk`, except that `tcsetattr` fails. -/
def worldTermiosFails : StartWorld :=
  { worldOk with tcsetattr := fun _ => -1 }

/-- The object after a successful `startProcess` in `worldOk`. -/
def running : UnixPtyProcess :=
  (idle.startProcess worldOk "/bin/sh" ["TERM=xterm"] 80 24).1

/-- A kernel that rejects `TIOCSWINSZ` on negative descriptors and accepts it on
all others. -/
def resizeOk : ResizeWorld :=
  { ioctlWinsz := fun fd _ => if fd < 0 then -1 else 0 }

/-! ## Predicates on the log -/

/-- Whether a call is a `::close`. -/
def SysCall.isClose : SysCall → Bool
  | .close _ => true
  | _ => false

/-- Whether a call is an `ioctl(.., TIOCSWINSZ, ..)`. -/
def SysCall.isWinsz : SysCall → Bool
  | .ioctlWinsz _ _ _ => true
  | _ => false

/-- The step of `startProcess` a call belongs to, if any. -/
def SysCall.step : SysCall → Option PtyStep
  | .posix_openpt _ => some .openMaster
  | .ptsname _ _ => some .slaveName
  | .grantpt _ _ => some .grant
  | .unlockpt _ _ => some .unlock
  | .openSlave _ _ => some .openSlave
  | .fcntlMaster _ _ => some .flagMaster
  | .fcntlSlave _ _ => some .flagSlave
  | .tcgetattr _ _ => some .getTermios
  | .tcsetattr _ _ => some .setTermios
  | _ => none

/-- Whether one of the nine calls reported failure, by the POSIX convention of
the call (not by the test the code applies): `posix_openpt` and `open` return a
negative value, `ptsname` a null pointer, `fcntl` returns `-1`, the others a
non-zero value.  Calls outside the nine steps never count. -/
def SysCall.failed : SysCall → Bool
  | .posix_openpt ret => decide (ret < 0)
  | .ptsname _ ret => decide (ret = "")
  | .grantpt _ ret => decide (ret ≠ 0)
  | .unlockpt _ ret => decide (ret ≠ 0)
  | .openSlave _ ret => decide (ret < 0)
  | .fcntlMaster _ ret => decide (ret = -1)
  | .fcntlSlave _ ret => decide (ret = -1)
  | .tcgetattr _ ret => decide (ret ≠ 0)
  | .tcsetattr _ ret => decide (ret ≠ 0)
  | _ => false

/-- The descriptors handed out by the calls of a log: the non-negative results
of `posix_openpt` and of `open`. -/
def acquired : List SysCall → List Int
  | [] => []
  | .posix_openpt ret :: cs => if 0 ≤ ret then ret :: acquired cs else acquired cs
  | .openSlave _ ret :: cs => if 0 ≤ ret then ret :: acquired cs else acquired cs
  | _ :: cs => acquired cs

/-- The split of a log at its first failed call: the calls before it, the call,
the calls after it. -/
def firstFailed : List SysCall → Option (List SysCall × SysCall × List SysCall)
  | [] => none
  | c :: cs =>
    if c.failed then some ([], c, cs)
    else (firstFailed cs).map (fun r => (c :: r.1, r.2.1, r.2.2))

/-- The `close` calls of `kill` on an object with the given slave and master
descriptors: the slave if it is non-negative, then the master if it is
non-negative. -/
def closeCalls (slave master : Int) : List SysCall :=
  (if 0 ≤ slave then [SysCall.close slave] else []) ++
  (if 0 ≤ master then [SysCall.close master] else [])

/-! ## Theorems -/

/-- C6. `readAll` returns exactly the inbound buffer and leaves the object with
an empty inbound buffer and every other field as it was; a second `readAll`
right after returns the empty byte sequence and changes nothing. -/
theorem readAll_drains (p : UnixPtyProcess) :
    p.readAll.2 = p.m_shellReadBuffer ∧
    p.readAll.1 = { p with m_shellReadBuffer := [] } ∧
    p.readAll.1.readAll.2 = [] ∧
    p.readAll.1.readAll.1 = p.readAll.1 := by
  simp [UnixPtyProcess.readAll]

/-- The log only grows: `drop` recovers what was appended. -/
theorem newCalls_of_log_eq {p q : UnixPtyProcess} {l : List SysCall}
    (h : q.log = p.log ++ l) : newCalls p q = l := by
  simp [newCalls, h]

/-- The log of `kill`: the two conditional closes, slave first, then the calls
of the termination branch. -/
theorem kill_log (w : KillWorld) (p : UnixPtyProcess) :
    ∃ rest : List SysCall, rest.filter SysCall.isClose = [] ∧
      (p.kill w).1.log = p.log ++
        ((if 0 ≤ p.m_handleSlave then [SysCall.close p.m_handleSlave] else []) ++
         (if 0 ≤ p.m_handleMaster then [SysCall.close p.m_handleMaster] else []) ++ rest) := by
  unfold UnixPtyProcess.kill
  by_cases hs : 0 ≤ p.m_handleSlave <;> by_cases hm : 0 ≤ p.m_handleMaster <;>
    by_cases hr : p.procState = .Running <;> by_cases ht : w.afterTerminate = .Running <;>
    simp [hs, hm, hr, ht, UnixPtyProcess.record, SysCall.isClose]

/-- After `kill` both descriptors are negative. -/
theorem kill_descriptors_invalid (w : KillWorld) (p : UnixPtyProcess) :
    (p.kill w).1.m_handleMaster < 0 ∧ (p.kill w).1.m_handleSlave < 0 := by
  unfold UnixPtyProcess.kill
  by_cases hs : 0 ≤ p.m_handleSlave <;> by_cases hm : 0 ≤ p.m_handleMaster <;>
    by_cases hr : p.procState = .Running <;> by_cases ht : w.afterTerminate = .Running <;>
    simp [hs, hm, hr, ht, UnixPtyProcess.record] <;> omega

/-- C9. From every state `kill` issues, as its only `close` calls, a close of the
slave descriptor if it is open (non-negative) followed by a close of the master
descriptor if it is open; afterwards both descriptors are invalid (negative);
and a `kill` repeated right away issues no `close` at all. -/
theorem kill_closes_each_descriptor_once (w w2 : KillWorld) (p : UnixPtyProcess) :
    (newCalls p (p.kill w).1).filter SysCall.isClose =
      (if 0 ≤ p.m_handleSlave then [SysCall.close p.m_handleSlave] else []) ++
      (if 0 ≤ p.m_handleMaster then [SysCall.close p.m_handleMaster] else []) ∧
    (p.kill w).1.m_handleMaster < 0 ∧ (p.kill w).1.m_handleSlave < 0 ∧
    (newCalls (p.kill w).1 ((p.kill w).1.kill w2).1).filter SysCall.isClose = [] := by
  obtain ⟨rest, hrest, hlog⟩ := kill_log w p
  obtain ⟨hm, hs⟩ := kill_descriptors_invalid w p
  obtain ⟨rest2, hrest2, hlog2⟩ := kill_log w2 (p.kill w).1
  refine ⟨?_, hm, hs, ?_⟩
  · rw [newCalls_of_log_eq hlog]
    by_cases h1 : 0 ≤ p.m_handleSlave <;> by_cases h2 : 0 ≤ p.m_handleMaster <;>
      simp [h1, h2, hrest, SysCall.isClose]
  · rw [newCalls_of_log_eq hlog2]
    have h1 : ¬ 0 ≤ (p.kill w).1.m_handleSlave := by omega
    have h2 : ¬ 0 ≤ (p.kill w).1.m_handleMaster := by omega
    simp [h1, h2, hrest2]

/-- The value `kill` returns: true exactly when the child was running at entry
and is not running after the escalation. -/
theorem kill_result (w : KillWorld) (p : UnixPtyProcess) :
    ((p.kill w).2 = true ↔ p.procState = .Running ∧ (p.kill w).1.procState = .NotRunning) := by
  unfold UnixPtyProcess.kill
  by_cases hs : 0 ≤ p.m_handleSlave <;> by_cases hm : 0 ≤ p.m_handleMaster <;>
    by_cases hr : p.procState = .Running <;> by_cases ht : w.afterTerminate = .Running <;>
    simp [hs, hm, hr, ht, UnixPtyProcess.record]

/-- C3, as the code has it. `kill` returns true exactly when the child was
running when `kill` was called and is confirmed not running when `kill`
returns; on an object whose child is not running (never started, or already
exited) `kill` returns false; and when a `kill` has returned true, a `kill`
repeated right away returns false. -/
theorem kill_true_iff_stopped_a_running_child (w w2 : KillWorld) (p : UnixPtyProcess) :
    ((p.kill w).2 = true ↔ p.procState = .Running ∧ (p.kill w).1.procState = .NotRunning) ∧
    (p.procState ≠ .Running → (p.kill w).2 = false) ∧
    ((p.kill w).2 = true → ((p.kill w).1.kill w2).2 = false) := by
  have h1 := kill_result w p
  have h2 := kill_result w2 (p.kill w).1
  refine ⟨h1, ?_, ?_⟩
  · intro hne
    cases hk : (p.kill w).2
    · rfl
    · exact absurd (h1.mp hk).1 hne
  · intro hk
    have hstop := (h1.mp hk).2
    cases hk2 : ((p.kill w).1.kill w2).2
    · rfl
    · have := (h2.mp hk2).1
      rw [hstop] at this
      cases this

/-- Witness for C3: the running object of `running`, killed twice. -/
theorem kill_true_iff_stopped_a_running_child_witness :
    (running.kill killEasy).2 = true ∧ ((running.kill killEasy).1.kill killEasy).2 = false :=
  ⟨by decide,
   (kill_true_iff_stopped_a_running_child killEasy killEasy running).2.2 (by decide)⟩

/-- C3, refuted as stated: on a newly constructed object, whose child is not
running when `kill` returns, `kill` returns false. -/
theorem kill_idle_returns_false :
    ¬ ((idle.kill killEasy).2 = true ↔ (idle.kill killEasy).1.procState = .NotRunning) := by
  decide

/-- C8. `resize` returns true exactly when `TIOCSWINSZ` does not fail on the
master and does not fail on the slave; when it returns true the stored size is
`(cols, rows)`, when it returns false the stored size is unchanged.  On a
killed object, with a kernel that fails the call on invalid descriptors,
`resize` returns false and the stored size stays what it was. -/
theorem resize_sets_size_iff_both_calls_succeed (w : ResizeWorld) (cols rows : Int)
    (p : UnixPtyProcess) :
    ((p.resize w cols rows).2 = true ↔
      (w.ioctlWinsz p.m_handleMaster (winsizeOf cols rows) ≠ -1 ∧
       w.ioctlWinsz p.m_handleSlave (winsizeOf cols rows) ≠ -1)) ∧
    ((p.resize w cols rows).2 = true → (p.resize w cols rows).1.m_size = (cols, rows)) ∧
    ((p.resize w cols rows).2 = false → (p.resize w cols rows).1.m_size = p.m_size) ∧
    ((∀ fd ws, fd < 0 → w.ioctlWinsz fd ws = -1) → ∀ kw : KillWorld,
      ((p.kill kw).1.resize w cols rows).2 = false ∧
      ((p.kill kw).1.resize w cols rows).1.m_size = (p.kill kw).1.m_size) := by
  refine ⟨?_, ?_, ?_, ?_⟩
  · unfold UnixPtyProcess.resize
    by_cases h1 : w.ioctlWinsz p.m_handleMaster (winsizeOf cols rows) = -1 <;>
      by_cases h2 : w.ioctlWinsz p.m_handleSlave (winsizeOf cols rows) = -1 <;>
      simp [h1, h2, UnixPtyProcess.record]
  · unfold UnixPtyProcess.resize
    by_cases h1 : w.ioctlWinsz p.m_handleMaster (winsizeOf cols rows) = -1 <;>
      by_cases h2 : w.ioctlWinsz p.m_handleSlave (winsizeOf cols rows) = -1 <;>
      simp [h1, h2, UnixPtyProcess.record]
  · unfold UnixPtyProcess.resize
    by_cases h1 : w.ioctlWinsz p.m_handleMaster (winsizeOf cols rows) = -1 <;>
      by_cases h2 : w.ioctlWinsz p.m_handleSlave (winsizeOf cols rows) = -1 <;>
      simp [h1, h2, UnixPtyProcess.record]
  · intro hbad kw
    have hm := (kill_descriptors_invalid kw p).1
    have h1 := hbad _ (winsizeOf cols rows) hm
    unfold UnixPtyProcess.resize
    simp [h1, UnixPtyProcess.record]

/-- Witness for C8: the running object resized to 100 x 30, and resized after a
`kill`. -/
theorem resize_sets_size_iff_both_calls_succeed_witness :
    (running.resize resizeOk 100 30).2 = true ∧
    (running.resize resizeOk 100 30).1.m_size = (100, 30) ∧
    ((running.kill killEasy).1.resize resizeOk 100 30).2 = false ∧
    ((running.kill killEasy).1.resize resizeOk 100 30).1.m_size = (80, 24) :=
  have h := resize_sets_size_iff_both_calls_succeed resizeOk 100 30 running
  have hk := h.2.2.2 (by intro fd ws hfd; simp [resizeOk, hfd]) killEasy
  ⟨by decide, h.2.1 (by decide), hk.1, hk.2.trans (by decide)⟩


/-- The state the failure block leaves behind when no child is running. -/
theorem failStep_eq (w : StartWorld) (step : PtyStep) (q : UnixPtyProcess)
    (h : q.procState ≠ .Running) :
    failStep w step q =
      ({ q with
          m_lastError := errorMessage step (w.strerror step)
          m_handleSlaveName := ""
          m_handleSlave := if 0 ≤ q.m_handleSlave then -1 else q.m_handleSlave
          m_handleMaster := if 0 ≤ q.m_handleMaster then -1 else q.m_handleMaster
          log := q.log ++
            ((if 0 ≤ q.m_handleSlave then [SysCall.close q.m_handleSlave] else []) ++
             (if 0 ≤ q.m_handleMaster then [SysCall.close q.m_handleMaster] else [])) },
        false) := by
  unfold failStep UnixPtyProcess.kill
  by_cases hs : 0 ≤ q.m_handleSlave <;> by_cases hm : 0 ≤ q.m_handleMaster <;>
    simp [hs, hm, h, UnixPtyProcess.record]

/-- Case analysis of `startProcess` along its thirteen return statements. -/
theorem startProcess_cases (w : StartWorld) (shellPath : String) (environment : List String)
    (cols rows : Int) (p : UnixPtyProcess) (motive : UnixPtyProcess × Bool → Prop)
    (hrun : p.procState = .Running → motive (p, false))
    (hpath : p.procState ≠ .Running →
      (w.isRelative shellPath = true ∨ w.fileExists shellPath = false) →
      motive ({ p with m_lastError := "WinPty Error: shell file path must be absolute" }, false))
    (hfail : ∀ step, p.procState ≠ .Running →
      w.isRelative shellPath = false → w.fileExists shellPath = true →
      (∀ s ∈ stepsBefore step, ¬ rejects w s) → rejects w step →
      motive (failStep w step (stateAt w shellPath cols rows p step)))
    (hok : p.procState ≠ .Running →
      w.isRelative shellPath = false → w.fileExists shellPath = true →
      (∀ s, ¬ rejects w s) →
      motive (((stateAt w shellPath cols rows p .setTermios).createNotifiers.spawn w
        (envFormat environment)), true)) :
    motive (p.startProcess w shellPath environment cols rows) := by
  unfold UnixPtyProcess.startProcess
  by_cases hr : p.procState = .Running
  · simpa [isAvailable, hr] using hrun hr
  by_cases hp : (w.isRelative shellPath || !w.fileExists shellPath) = true
  · simp only [isAvailable, hr, hp]
    simp only [Bool.not_true, Bool.false_eq_true, if_false, if_true]
    apply hpath hr
    simpa using hp
  have hrel : w.isRelative shellPath = false := by
    cases h : w.isRelative shellPath <;> simp_all
  have hex : w.fileExists shellPath = true := by
    cases h : w.fileExists shellPath <;> simp_all
  simp only [isAvailable, hr, hp, Bool.not_true, Bool.false_eq_true, if_false]
  by_cases h1 : w.posix_openpt ≤ 0
  · rw [if_pos (by simpa using h1)]
    exact hfail .openMaster hr hrel hex (by simp [stepsBefore]) h1
  rw [if_neg (by simpa using h1)]
  by_cases h2 : w.ptsname w.posix_openpt = ""
  · rw [if_pos (by simpa using h2)]
    exact hfail .slaveName hr hrel hex (by simp [stepsBefore, rejects, h1]) h2
  rw [if_neg (by simpa using h2)]
  by_cases h3 : w.grantpt w.posix_openpt ≠ 0
  · rw [if_pos (by simpa using h3)]
    exact hfail .grant hr hrel hex (by simp [stepsBefore, rejects, h1, h2]) h3
  rw [if_neg (by simpa using h3)]
  replace h3 := not_not.mp h3
  by_cases h4 : w.unlockpt w.posix_openpt ≠ 0
  · rw [if_pos (by simpa using h4)]
    exact hfail .unlock hr hrel hex (by simpa [stepsBefore, rejects, h1, h2] using h3) h4
  rw [if_neg (by simpa using h4)]
  replace h4 := not_not.mp h4
  by_cases h5 : w.openSlave (w.ptsname w.posix_openpt) < 0
  · rw [if_pos (by simpa using h5)]
    exact hfail .openSlave hr hrel hex
      (by simpa [stepsBefore, rejects, h1, h2] using ⟨h3, h4⟩) h5
  rw [if_neg (by simpa using h5)]
  by_cases h6 : w.fcntlMaster w.posix_openpt = -1
  · rw [if_pos (by simpa using h6)]
    exact hfail .flagMaster hr hrel hex
      (by simpa [stepsBefore, rejects, h1, h2, h5] using ⟨h3, h4⟩) h6
  rw [if_neg (by simpa using h6)]
  by_cases h7 : w.fcntlSlave (w.openSlave (w.ptsname w.posix_openpt)) = -1
  · rw [if_pos (by simpa using h7)]
    exact hfail .flagSlave hr hrel hex
      (by simpa [stepsBefore, rejects, h1, h2, h5, h6] using ⟨h3, h4⟩) h7
  rw [if_neg (by simpa using h7)]
  by_cases h8 : w.tcgetattr w.posix_openpt ≠ 0
  · rw [if_pos (by simpa using h8)]
    exact hfail .getTermios hr hrel hex
      (by simpa [stepsBefore, rejects, h1, h2, h5, h6, h7] using ⟨h3, h4⟩) h8
  rw [if_neg (by simpa using h8)]
  replace h8 := not_not.mp h8
  by_cases h9 : w.tcsetattr w.posix_openpt ≠ 0
  · rw [if_pos (by simpa using h9)]
    exact hfail .setTermios hr hrel hex
      (by simpa [stepsBefore, rejects, h1, h2, h5, h6, h7] using ⟨h3, h4, h8⟩) h9
  rw [if_neg (by simpa using h9)]
  replace h9 := not_not.mp h9
  apply hok hr hrel hex
  intro s
  cases s <;> simp [rejects] <;> first | omega | assumption

/-! ### The failure block -/

/-- The failure block records the message of its step. -/
theorem failStep_lastError (w : StartWorld) (step : PtyStep) (q : UnixPtyProcess) :
    (failStep w step q).1.m_lastError = errorMessage step (w.strerror step) := by
  rw [failStep]
  exact (by
    unfold UnixPtyProcess.kill
    by_cases hs : 0 ≤ q.m_handleSlave <;> by_cases hm : 0 ≤ q.m_handleMaster <;>
      by_cases hr : q.procState = .Running <;>
      by_cases ht : w.killWorld.afterTerminate = .Running <;>
      simp [hs, hm, hr, ht])

/-- The failure block leaves both descriptors negative. -/
theorem failStep_descriptors (w : StartWorld) (step : PtyStep) (q : UnixPtyProcess) :
    (failStep w step q).1.m_handleMaster < 0 ∧ (failStep w step q).1.m_handleSlave < 0 :=
  kill_descriptors_invalid w.killWorld _

/-- With no child running the failure block issues the two conditional closes
and nothing else. -/
theorem failStep_log (w : StartWorld) (step : PtyStep) (q : UnixPtyProcess)
    (h : q.procState ≠ .Running) :
    (failStep w step q).1.log = q.log ++ closeCalls q.m_handleSlave q.m_handleMaster := by
  rw [failStep_eq w step q h, closeCalls]

/-! ### The states along `startProcess` -/

/-- No step touches the process state. -/
theorem stateAt_procState (w : StartWorld) (shellPath : String) (cols rows : Int)
    (p : UnixPtyProcess) (step : PtyStep) :
    (stateAt w shellPath cols rows p step).procState = p.procState := by
  cases step <;> simp [stateAt]

/-- From the first step on the master descriptor is the result of `posix_openpt`. -/
theorem stateAt_master (w : StartWorld) (shellPath : String) (cols rows : Int)
    (p : UnixPtyProcess) (step : PtyStep) :
    (stateAt w shellPath cols rows p step).m_handleMaster = w.posix_openpt := by
  cases step <;> simp [stateAt]

/-- The stored size is the requested one from line 49 on. -/
theorem stateAt_size (w : StartWorld) (shellPath : String) (cols rows : Int)
    (p : UnixPtyProcess) (step : PtyStep) :
    (stateAt w shellPath cols rows p step).m_size = (cols, rows) := by
  cases step <;> simp [stateAt]

/-- C7. When no child is running and the path is relative or names no existing
file, `startProcess` returns false, sets `lastError` to its path message and
changes nothing else: no call is issued, and the descriptors, the stored size
and the stored shell path are what they were. -/
theorem startProcess_rejects_bad_path (w : StartWorld) (shellPath : String)
    (environment : List String) (cols rows : Int) (p : UnixPtyProcess)
    (hidle : p.procState ≠ .Running)
    (hbad : w.isRelative shellPath = true ∨ w.fileExists shellPath = false) :
    (p.startProcess w shellPath environment cols rows).2 = false ∧
    (p.startProcess w shellPath environment cols rows).1 =
      { p with m_lastError := "WinPty Error: shell file path must be absolute" } ∧
    newCalls p (p.startProcess w shellPath environment cols rows).1 = [] ∧
    (p.startProcess w shellPath environment cols rows).1.m_handleMaster = p.m_handleMaster ∧
    (p.startProcess w shellPath environment cols rows).1.m_handleSlave = p.m_handleSlave ∧
    (p.startProcess w shellPath environment cols rows).1.m_size = p.m_size ∧
    (p.startProcess w shellPath environment cols rows).1.m_shellPath = p.m_shellPath := by
  have hcond : (w.isRelative shellPath || !w.fileExists shellPath) = true := by
    rcases hbad with h | h <;> simp [h]
  have hres : p.startProcess w shellPath environment cols rows =
      ({ p with m_lastError := "WinPty Error: shell file path must be absolute" }, false) := by
    unfold UnixPtyProcess.startProcess
    simp only [isAvailable, hidle, hcond]
    simp
  rw [hres]
  simp [newCalls]

/-- Witness for C7: the relative path `bin/sh` on a newly constructed object. -/
theorem startProcess_rejects_bad_path_witness :
    (idle.startProcess worldOk "bin/sh" [] 80 24).2 = false ∧
    newCalls idle (idle.startProcess worldOk "bin/sh" [] 80 24).1 = [] :=
  have h := startProcess_rejects_bad_path worldOk "bin/sh" [] 80 24 idle (by decide)
    (Or.inl (by decide))
  ⟨h.1, h.2.2.1⟩

/-- C2, what the code does. When the path passes the two checks, no child is
running and none of the nine steps is rejected, `startProcess` returns true
whatever the outcome of the spawn: the process state and the pid are the ones
`start(..); waitForStarted()` left behind, and the stored size is `(cols, rows)`. -/
theorem startProcess_returns_true_whatever_the_spawn (w : StartWorld) (shellPath : String)
    (environment : List String) (cols rows : Int) (p : UnixPtyProcess)
    (hidle : p.procState ≠ .Running)
    (habs : w.isRelative shellPath = false) (hex : w.fileExists shellPath = true)
    (hsteps : ∀ s, ¬ rejects w s) :
    (p.startProcess w shellPath environment cols rows).2 = true ∧
    (p.startProcess w shellPath environment cols rows).1.procState = w.startedState ∧
    (p.startProcess w shellPath environment cols rows).1.m_pid = w.processId ∧
    (p.startProcess w shellPath environment cols rows).1.m_size = (cols, rows) := by
  refine startProcess_cases w shellPath environment cols rows p
    (fun r => r.2 = true ∧ r.1.procState = w.startedState ∧ r.1.m_pid = w.processId ∧
      r.1.m_size = (cols, rows)) ?_ ?_ ?_ ?_
  · intro h; exact absurd h hidle
  · intro _ h
    rcases h with h | h
    · rw [habs] at h; cases h
    · rw [hex] at h; cases h
  · intro step _ _ _ _ h
    exact absurd h (hsteps step)
  · intro _ _ _ _
    simp [stateAt_size]

/-- Witness for C2: an existing file that cannot be executed.  Every call up to
the spawn succeeds, the spawn fails, and `startProcess` returns true with the
process not running and the pid 0. -/
theorem startProcess_returns_true_whatever_the_spawn_witness :
    (idle.startProcess worldSpawnFails "/etc/hostname" [] 80 24).2 = true ∧
    (idle.startProcess worldSpawnFails "/etc/hostname" [] 80 24).1.procState = .NotRunning ∧
    (idle.startProcess worldSpawnFails "/etc/hostname" [] 80 24).1.m_pid = 0 ∧
    (idle.startProcess worldSpawnFails "/etc/hostname" [] 80 24).1.m_size = (80, 24) :=
  startProcess_returns_true_whatever_the_spawn worldSpawnFails "/etc/hostname" [] 80 24 idle
    (by decide) (by decide) (by decide) (by intro s; cases s <;> decide)

/-- The conditional closes are closes. -/
theorem closeCalls_all_isClose (slave master : Int) :
    (closeCalls slave master).all SysCall.isClose = true := by
  unfold closeCalls
  split_ifs <;> simp [SysCall.isClose]

/-- The conditional closes contain no window-size call. -/
theorem closeCalls_any_isWinsz (slave master : Int) :
    (closeCalls slave master).any SysCall.isWinsz = false := by
  unfold closeCalls
  split_ifs <;> simp [SysCall.isWinsz]

/-- C10, what the code does. No run of `startProcess`, successful or not,
issues `ioctl(.., TIOCSWINSZ, ..)` on any descriptor: the size `(cols, rows)` is
stored in `m_size` and never applied to the terminal. -/
theorem startProcess_never_sets_window_size (w : StartWorld) (shellPath : String)
    (environment : List String) (cols rows : Int) (p : UnixPtyProcess) :
    (newCalls p (p.startProcess w shellPath environment cols rows).1).any SysCall.isWinsz
      = false := by
  refine startProcess_cases w shellPath environment cols rows p
    (fun r => (newCalls p r.1).any SysCall.isWinsz = false) ?_ ?_ ?_ ?_
  · intro _; simp [newCalls]
  · intro _ _; simp [newCalls]
  · intro step hr _ _ _ _
    have hlog := failStep_log w step (stateAt w shellPath cols rows p step)
      (by rw [stateAt_procState]; exact hr)
    have hc := closeCalls_any_isWinsz (stateAt w shellPath cols rows p step).m_handleSlave
      (stateAt w shellPath cols rows p step).m_handleMaster
    simp only [newCalls, hlog]
    cases step <;> simp [stateAt, SysCall.isWinsz] at hc ⊢ <;> simpa using hc
  · intro _ _ _ _
    simp [newCalls, stateAt, SysCall.isWinsz]

/-! ### Error messages -/

/-- Two strings that already differ inside their first `n` characters stay
different whatever is appended to them. -/
theorem append_ne_of_take_ne (a b x y : String) (n : Nat) (ha : n ≤ a.data.length)
    (hb : n ≤ b.data.length) (hne : a.data.take n ≠ b.data.take n) : a ++ x ≠ b ++ y := by
  intro h
  have hd : (a ++ x).data = (b ++ y).data := by rw [h]
  rw [String.data_append, String.data_append] at hd
  have ht := congrArg (List.take n) hd
  rw [List.take_append_of_le_length ha, List.take_append_of_le_length hb] at ht
  exact hne ht

/-- The message of a step cannot be the message of another step, whatever the
two `strerror` texts are. -/
theorem errorMessage_step_injective (s1 s2 : PtyStep) (e1 e2 : String)
    (h : errorMessage s1 e1 = errorMessage s2 e2) : s1 = s2 := by
  cases s1 <;> cases s2 <;>
    first
    | rfl
    | exact absurd h (append_ne_of_take_ne _ _ _ _ 31 (by decide) (by decide) (by decide))
    | exact absurd h (append_ne_of_take_ne _ _ _ _ 40 (by decide) (by decide) (by decide))

/-! ### The first failed call of a log -/

/-- A log that splits into calls that did not fail, a call that failed, and a
rest, has exactly that split as its split at the first failed call. -/
theorem firstFailed_spec {l pre post : List SysCall} {e : SysCall}
    (hl : l = pre ++ e :: post) (hpre : ∀ c ∈ pre, c.failed = false) (he : e.failed = true) :
    firstFailed l = some (pre, e, post) := by
  subst hl
  induction pre with
  | nil => simp [firstFailed, he]
  | cons c cs ih =>
    have hc : c.failed = false := hpre c (by simp)
    have hcs : ∀ x ∈ cs, x.failed = false := fun x hx => hpre x (by simp [hx])
    simp [firstFailed, hc, ih hcs]

/-- A `close` never counts as a failed step, so the conditional closes have no
failed call. -/
theorem firstFailed_closeCalls (slave master : Int) :
    firstFailed (closeCalls slave master) = none := by
  unfold closeCalls
  split_ifs <;> simp [firstFailed, SysCall.failed]

/-- An open master descriptor is among the conditional closes. -/
theorem close_master_mem (slave master : Int) (h : 0 ≤ master) :
    SysCall.close master ∈ closeCalls slave master := by
  simp [closeCalls, h]

/-- An open slave descriptor is among the conditional closes. -/
theorem close_slave_mem (slave master : Int) (h : 0 ≤ slave) :
    SysCall.close slave ∈ closeCalls slave master := by
  simp [closeCalls, h]

/-- C4. Take any run of `startProcess` and split the calls it issued at the
first of the nine steps that failed: the calls `pre` before it (none failed),
the failed call `e` of step `step`, and the calls `post` after it.  Then
`startProcess` returned false; `lastError` is the message of `step`, which is
the message of no other step; `post` consists of `close` calls only (no later
step, no spawn); every descriptor handed out by `pre` and `e` is closed in
`post`; and both descriptors are invalid on return. -/
theorem startProcess_failure_unwinds (w : StartWorld) (shellPath : String)
    (environment : List String) (cols rows : Int) (p : UnixPtyProcess)
    (step : PtyStep) (pre post : List SysCall) (e : SysCall)
    (hlog : newCalls p (p.startProcess w shellPath environment cols rows).1 = pre ++ e :: post)
    (hpre : ∀ c ∈ pre, c.failed = false) (he : e.failed = true) (hstep : e.step = some step) :
    (p.startProcess w shellPath environment cols rows).2 = false ∧
    (p.startProcess w shellPath environment cols rows).1.m_lastError =
      errorMessage step (w.strerror step) ∧
    (∀ other err, other ≠ step →
      errorMessage other err ≠
        (p.startProcess w shellPath environment cols rows).1.m_lastError) ∧
    post.all SysCall.isClose = true ∧
    (∀ fd ∈ acquired (pre ++ [e]), SysCall.close fd ∈ post) ∧
    (p.startProcess w shellPath environment cols rows).1.m_handleMaster < 0 ∧
    (p.startProcess w shellPath environment cols rows).1.m_handleSlave < 0 := by
  revert hlog
  refine startProcess_cases w shellPath environment cols rows p
    (fun r => newCalls p r.1 = pre ++ e :: post →
      r.2 = false ∧ r.1.m_lastError = errorMessage step (w.strerror step) ∧
      (∀ other err, other ≠ step → errorMessage other err ≠ r.1.m_lastError) ∧
      post.all SysCall.isClose = true ∧
      (∀ fd ∈ acquired (pre ++ [e]), SysCall.close fd ∈ post) ∧
      r.1.m_handleMaster < 0 ∧ r.1.m_handleSlave < 0) ?_ ?_ ?_ ?_
  · intro _ hlog
    simp [newCalls] at hlog
  · intro _ _ hlog
    simp [newCalls] at hlog
  · intro failing hr _ _ hprev hrej hlog
    have hl := failStep_log w failing (stateAt w shellPath cols rows p failing)
      (by rw [stateAt_procState]; exact hr)
    have hd := failStep_descriptors w failing (stateAt w shellPath cols rows p failing)
    have hm := failStep_lastError w failing (stateAt w shellPath cols rows p failing)
    simp only [newCalls, hl] at hlog
    have hff := firstFailed_spec hlog hpre he
    have hkey : step = failing ∧ post.all SysCall.isClose = true ∧
        (∀ fd ∈ acquired (pre ++ [e]), SysCall.close fd ∈ post) := by
      clear hl hd hm hlog
      cases failing <;>
        simp [stateAt, stepsBefore, rejects] at hprev hrej hff
      case openMaster =>
        by_cases hneg : w.posix_openpt < 0
        · simp [firstFailed, SysCall.failed, hneg] at hff
          obtain ⟨rfl, rfl, rfl⟩ := hff
          simp [SysCall.step] at hstep
          refine ⟨hstep.symm, closeCalls_all_isClose _ _, ?_⟩
          intro fd hfd
          simp [acquired, hneg] at hfd
          exact absurd hfd.1 (by omega)
        · simp [firstFailed, SysCall.failed, hneg, firstFailed_closeCalls] at hff
      all_goals
        have hm0 : ¬ w.posix_openpt < 0 := by omega
        have hm1 : 0 ≤ w.posix_openpt := by omega
      case slaveName =>
        simp [firstFailed, SysCall.failed, hm0, hrej] at hff
        obtain ⟨rfl, rfl, rfl⟩ := hff
        simp [SysCall.step] at hstep
        refine ⟨hstep.symm, closeCalls_all_isClose _ _, ?_⟩
        intro fd hfd
        simp [acquired, hm1] at hfd
        subst hfd
        exact close_master_mem _ _ hm1
      case grant | unlock =>
        simp [firstFailed, SysCall.failed, hm0, hrej, hprev] at hff
        obtain ⟨rfl, rfl, rfl⟩ := hff
        simp [SysCall.step] at hstep
        refine ⟨hstep.symm, closeCalls_all_isClose _ _, ?_⟩
        intro fd hfd
        simp [acquired, hm1] at hfd
        subst hfd
        exact close_master_mem _ _ hm1
      case openSlave =>
        simp [firstFailed, SysCall.failed, hm0, hrej, hprev] at hff
        obtain ⟨rfl, rfl, rfl⟩ := hff
        simp [SysCall.step] at hstep
        refine ⟨hstep.symm, closeCalls_all_isClose _ _, ?_⟩
        intro fd hfd
        simp [acquired, hm1] at hfd
        rcases hfd with rfl | ⟨hge, _⟩
        · exact close_master_mem _ _ hm1
        · exact absurd hge (by omega)
      all_goals
        have hs0 : ¬ w.openSlave (w.ptsname w.posix_openpt) < 0 := by omega
        have hs1 : 0 ≤ w.openSlave (w.ptsname w.posix_openpt) := by omega
        simp [firstFailed, SysCall.failed, hm0, hs0, hrej, hprev] at hff
        obtain ⟨rfl, rfl, rfl⟩ := hff
        simp [SysCall.step] at hstep
        refine ⟨hstep.symm, closeCalls_all_isClose _ _, ?_⟩
        intro fd hfd
        simp [acquired, hm1, hs1] at hfd
        rcases hfd with rfl | rfl
        · exact close_master_mem _ _ hm1
        · exact close_slave_mem _ _ hs1
    obtain ⟨rfl, hclose, hacq⟩ := hkey
    refine ⟨rfl, hm, ?_, hclose, hacq, hd.1, hd.2⟩
    intro other err hne heq
    rw [hm] at heq
    exact hne (errorMessage_step_injective _ _ _ _ heq)
  · intro _ _ _ hall hlog
    have hff := firstFailed_spec hlog hpre he
    have h1 := hall .openMaster
    have h2 := hall .slaveName
    have h3 := hall .grant
    have h4 := hall .unlock
    have h5 := hall .openSlave
    have h6 := hall .flagMaster
    have h7 := hall .flagSlave
    have h8 := hall .getTermios
    have h9 := hall .setTermios
    simp [rejects] at h1 h2 h3 h4 h5 h6 h7 h8 h9
    have hm0 : ¬ w.posix_openpt < 0 := by omega
    have hs0 : ¬ w.openSlave (w.ptsname w.posix_openpt) < 0 := by omega
    simp [newCalls, stateAt, firstFailed, SysCall.failed, hm0, hs0, h2, h3, h4, h6, h7, h8, h9]
      at hff

/-- Witness for C4: `tcsetattr` fails after both descriptors (5 and 6) were
opened; the slave and then the master are closed. -/
theorem startProcess_failure_unwinds_witness :
    (idle.startProcess worldTermiosFails "/bin/sh" [] 80 24).2 = false ∧
    (idle.startProcess worldTermiosFails "/bin/sh" [] 80 24).1.m_lastError =
      "UnixPty Error: unabble to set associated params -> Permission denied" ∧
    (idle.startProcess worldTermiosFails "/bin/sh" [] 80 24).1.m_handleMaster < 0 ∧
    (idle.startProcess worldTermiosFails "/bin/sh" [] 80 24).1.m_handleSlave < 0 :=
  have h := startProcess_failure_unwinds worldTermiosFails "/bin/sh" [] 80 24 idle .setTermios
    [.posix_openpt 5, .ptsname 5 "/dev/pts/3", .grantpt 5 0, .unlockpt 5 0,
      .openSlave "/dev/pts/3" 6, .fcntlMaster 5 0, .fcntlSlave 6 0, .tcgetattr 5 0]
    [.close 6, .close 5] (.tcsetattr 5 (-1)) (by decide) (by decide) (by decide) (by decide)
  ⟨h.1, h.2.1.trans (by decide), h.2.2.2.2.2.1, h.2.2.2.2.2.2⟩

/-! ### The read-readiness callback -/

/-- The loop on `k` full chunks followed by a short one: the local `buffer`
ends up holding every byte read, the local `data` the short chunk only. -/
theorem readLoop_full_then_short (size : Nat) (cs : List QByteArray) (s : QByteArray)
    (rest : List QByteArray) (buffer : QByteArray)
    (hfull : ∀ c ∈ cs, c.length = size) (hshort : s.length < size) :
    readLoop size (cs ++ s :: rest) buffer = (buffer ++ cs.flatten ++ s, s, cs ++ [s]) := by
  induction cs generalizing buffer with
  | nil =>
    have hs : List.take size s = s := List.take_of_length_le (by omega)
    have hne : s.length ≠ size := by omega
    simp [readLoop, hs, hne]
  | cons c cs ih =>
    have hc : c.length = size := hfull c (by simp)
    have htake : List.take size c = c := List.take_of_length_le (by omega)
    have hcs : ∀ x ∈ cs, x.length = size := fun x hx => hfull x (by simp [hx])
    simp [readLoop, htake, hc, ih (buffer ++ c) hcs]

/-- C1, what the code does. When the reads of one callback run deliver `k` full
1024-byte chunks and then a short chunk `s`, the local `buffer` collects all of
them in order, but what is appended to the inbound buffer is the local `data`:
afterwards the inbound buffer is the prior content followed by `s` alone. -/
theorem onReadMasterActivated_appends_last_chunk_only (p : UnixPtyProcess)
    (cs : List QByteArray) (s : QByteArray) (rest : List QByteArray)
    (hfull : ∀ c ∈ cs, c.length = 1024) (hshort : s.length < 1024) :
    (readLoop 1024 (cs ++ s :: rest) []).1 = cs.flatten ++ s ∧
    (p.onReadMasterActivated (cs ++ s :: rest)).m_shellReadBuffer =
      p.m_shellReadBuffer ++ s := by
  have h := readLoop_full_then_short 1024 cs s rest [] hfull hshort
  simp [UnixPtyProcess.onReadMasterActivated, h]

/-- Witness for C1: one full chunk of 1024 bytes `A` followed by the single byte
`B`, on an empty inbound buffer; the 1024 bytes are lost. -/
theorem onReadMasterActivated_appends_last_chunk_only_witness :
    (idle.onReadMasterActivated [List.replicate 1024 65, [66]]).m_shellReadBuffer = [66] :=
  (onReadMasterActivated_appends_last_chunk_only idle [List.replicate 1024 65] [66] []
    (fun c hc => by
      rw [List.mem_singleton] at hc
      rw [hc, List.length_replicate])
    (by decide)).2

/-! ### Environment lines -/

/-- Splitting never yields the empty list. -/
theorem splitChars_ne_nil (sep : Char) (l : List Char) : splitChars sep l ≠ [] := by
  induction l with
  | nil => simp [splitChars]
  | cons c cs ih =>
    unfold splitChars
    split_ifs
    · simp
    · split <;> simp

/-- The first part of a split ends at the first separator. -/
theorem splitChars_append_sep (sep : Char) (k v : List Char) (hk : sep ∉ k) :
    splitChars sep (k ++ sep :: v) = k :: splitChars sep v := by
  induction k with
  | nil => simp [splitChars]
  | cons c cs ih =>
    have hc : c ≠ sep := fun h => hk (by simp [h])
    have hcs : sep ∉ cs := fun h => hk (by simp [h])
    simp [splitChars, hc, ih hcs]

/-- The last element of a non-empty list does not depend on the default. -/
theorem getLastD_cons_of_ne_nil {α : Type} (a d : α) (l : List α) (h : l ≠ []) :
    (a :: l).getLastD d = l.getLastD d := by
  cases l with
  | nil => exact absurd rfl h
  | cons b bs => simp [List.getLastD]

/-- C5, what the code does. For a line `K=V` whose key `K` contains no `=`, the
variable `K` is set to the last part of `V.split("=")`: all of `V` only when `V`
has no `=`, otherwise what follows the last `=` of `V`. -/
theorem envFormat_value_is_last_part (K V : String) (hK : '=' ∉ K.data) :
    envFormat [K ++ "=" ++ V] = [(K, (splitEq V).getLastD "")] ∧
    envValue (envFormat [K ++ "=" ++ V]) K = some ((splitEq V).getLastD "") := by
  have hsplit : splitEq (K ++ "=" ++ V) = K :: splitEq V := by
    have hd : (K ++ "=" ++ V).data = K.data ++ '=' :: V.data := by
      simp [String.data_append]
    simp [splitEq, hd, splitChars_append_sep _ _ _ hK]
  have hne : splitEq V ≠ [] := by
    simp [splitEq, splitChars_ne_nil]
  have hlast : (K :: splitEq V).getLastD "" = (splitEq V).getLastD "" :=
    getLastD_cons_of_ne_nil K "" (splitEq V) hne
  have hfmt : envFormat [K ++ "=" ++ V] = [(K, (splitEq V).getLastD "")] := by
    simpa [envFormat, envInsert, hsplit] using hlast
  refine ⟨hfmt, ?_⟩
  rw [hfmt]
  simp [envValue]

/-- Witness for C5: the line `A=b=c` sets `A` to `c`, not to `b=c`. -/
theorem envFormat_value_is_last_part_witness :
    envFormat ["A=b=c"] = [("A", "c")] ∧ envValue (envFormat ["A=b=c"]) "A" = some "c" :=
  have h := envFormat_value_is_last_part "A" "b=c" (by decide)
  ⟨h.1.trans (by decide), h.2.trans (by decide)⟩

end PtyQt
